import Mathlib

set_option linter.unusedVariables false

namespace PushkinPrep

/-!
Shallow embedding of `src/commands/prep/index.js` (pushkin-cli `prep` command).
JS objects are modeled as association lists over `String` keys: `assocGet` is
property read, `assocSet` is property write / object-spread override (an existing
key keeps its position and gets the new value; a new key is appended, exactly as
JS object spread and assignment behave), and `assocDelete` is the `delete`
operator.  Asynchronous callback-based control flow is modeled by computing, for
each launched asynchronous operation, the completion that will eventually run
(a "job"), and then folding a faithful transcription of the callback bodies over
an arbitrary ordering of those completions; the single-threaded event loop means
only the order of completions varies.  Machine effects that the claims are about
(files mutated, callback invocations, uncaught throws) are recorded as events.
-/

def assocGet {α : Type} : List (String × α) → String → Option α
  | [], _ => none
  | (k, v) :: rest, key => if k = key then some v else assocGet rest key

def assocSet {α : Type} : List (String × α) → String → α → List (String × α)
  | [], key, v => [(key, v)]
  | (k, w) :: rest, key, v =>
      if k = key then (k, v) :: rest else (k, w) :: assocSet rest key v

def assocDelete {α : Type} (l : List (String × α)) (key : String) : List (String × α) :=
  l.filter (fun p => p.1 ≠ key)

/-! ### Unique names (lines 25 and 193)

Line 25: `const uniqueName = ` +
`pushkinComponent${uuid().split('-').join('')}` (inside `packAndInstall`,
used for both API controllers and web pages, which both go through
`packAndInstall`).  Line 193: `const workerName = ` +
`pushkinworker${uuid().split('-').join('')}` (inside `prepWorker`).
`split('-').join('')` removes exactly the dash characters of the uuid string.
The external `uuid/v4` generator returns strings in the canonical 8-4-4-4-12
format: 32 non-dash characters with dashes inserted at the four fixed
positions; `IsUuidString` captures exactly that shape. -/

def stripDashes (s : String) : String := ⟨s.data.filter (fun c => c ≠ '-')⟩

def packAndInstallUniqueName (u : String) : String :=
  "pushkinComponent" ++ stripDashes u

def prepWorkerNameOf (u : String) : String :=
  "pushkinworker" ++ stripDashes u

def insertDashes (l : List Char) : List Char :=
  l.take 8 ++ '-' :: (l.drop 8).take 4 ++ '-' :: (l.drop 12).take 4
    ++ '-' :: (l.drop 16).take 4 ++ '-' :: l.drop 20

def IsUuidString (s : String) : Prop :=
  ∃ l : List Char, l.length = 32 ∧ (∀ c ∈ l, c ≠ '-') ∧ s.data = insertDashes l

/-- The three component roles.  Controllers are named by `packAndInstall`
called from `prepApi` (line 163), web pages by `packAndInstall` called from
`prepWeb` (line 177) — the same name generator — and workers by `prepWorker`
(line 193). -/
inductive Role
  | controller
  | webPage
  | worker
deriving DecidableEq, Repr

def roleName : Role → String → String
  | .controller, u => packAndInstallUniqueName u
  | .webPage, u => packAndInstallUniqueName u
  | .worker, u => prepWorkerNameOf u

/-! ### Service definitions (docker-compose service entries) -/

/-- A value of a service-definition field: either an opaque scalar or the
`labels` sub-object (a map from label name to boolean value, the only label
shape the code reads or writes: `isPushkinWorker: true`). -/
inductive SVal
  | str : String → SVal
  | labels : List (String × Bool) → SVal
deriving DecidableEq, Repr

abbrev Service := List (String × SVal)

/-- The labels object of a service, or `{}` when absent / not an object
(mirrors `serviceContent.labels || {}` and the truthiness test of line 136). -/
def serviceLabels (svc : Service) : List (String × Bool) :=
  match assocGet svc "labels" with
  | some (.labels l) => l
  | _ => []

/-- Line 136: `serviceContent.labels && serviceContent.labels.isPushkinWorker`. -/
def isManaged (svc : Service) : Bool :=
  match assocGet svc "labels" with
  | some (.labels l) => (assocGet l "isPushkinWorker").getD false
  | _ => false

/-- Lines 202-203 of `prepWorker`:
`const serviceContent = {...workerService, image: workerName};`
`serviceContent.labels = {...(serviceContent.labels || {}), isPushkinWorker: true};` -/
def prepWorkerService (workerService : Service) (workerName : String) : Service :=
  let serviceContent := assocSet workerService "image" (.str workerName)
  let lbls :=
    match assocGet serviceContent "labels" with
    | some (.labels l) => l
    | _ => []
  assocSet serviceContent "labels" (.labels (assocSet lbls "isPushkinWorker" true))

/-! ### cleanUpSync (lines 92-141) -/

/-- One entry of `api/src/controllers.json`: `{ name, mountPath }`. -/
structure ContrEntry where
  name : String
  mountPath : String
deriving DecidableEq, Repr

/-- Lines 66-74 (`getModuleList`): split the trimmed file on newlines; for each
line split on single spaces; when the first token is `import`, collect the
second token (`spaces[1]`; an absent second token is JS `undefined`, modeled as
`""` — the collected names feed only best-effort `npm uninstall` calls, which
have no modeled effect). -/
def getModuleList (data : String) : List String :=
  (data.trim.splitOn "\n").foldl
    (fun acc line =>
      let spaces := line.splitOn " "
      if spaces.head? = some "import" then acc ++ [(spaces.get? 1).getD ""] else acc)
    []

/-- Line 113: the reset contents written to `front-end/src/experiments.js`. -/
def resetExperimentsJs : String := "export default [\n];"

/-- Lines 134-138: iterate over a snapshot of `Object.keys(compFile.services)`;
for each key, if the service currently stored there is managed
(`labels && labels.isPushkinWorker`), `delete compFile.services[service]`. -/
def removeManagedServices (services : List (String × Service)) : List (String × Service) :=
  (services.map Prod.fst).foldl
    (fun acc key =>
      match assocGet acc key with
      | some svc => if isManaged svc then assocDelete acc key else acc
      | none => acc)
    services

/-- The mutable file state that `cleanUpSync` touches.  `none` everywhere means
the read of that file throws (missing file / unparsable contents):
`JSON.parse ∘ readFileSync` at line 96, `readFileSync` at line 68 (via line
107), `readdirSync` at lines 118 and 123, `safeLoad ∘ readFileSync` at line
132.  Staging directories are lists of `(entryName, isFile)` pairs, mirroring
the `lstatSync(...).isFile()` test of lines 120 and 125.  The compose file is
modeled by its `services` map (the only part the code reads or writes). -/
structure CoreState where
  controllersJson : Option (List ContrEntry)
  experimentsJs : Option String
  tempApi : Option (List (String × Bool))
  tempFe : Option (List (String × Bool))
  compose : Option (List (String × Service))
deriving DecidableEq, Repr

/-- Lines 92-141.  Returns the final state and whether the call returned
normally (`false` = an uncaught throw escaped `cleanUpSync`; the partial
mutations made before the throw are kept, as on a real throw).  The
`npm uninstall` loops (lines 97-102, 108-112) only touch `node_modules`,
which is outside the modeled state, and their failures are caught and logged
(best-effort).  The tgz-removal block (lines 116-128) is wrapped in a single
`try` whose `catch` only logs, so a throwing `readdirSync` skips the rest of
that block but never aborts the reset. -/
def cleanUpSync (s : CoreState) : CoreState × Bool :=
  match s.controllersJson with
  | none => (s, false)
  | some _ =>
    let s1 : CoreState := { s with controllersJson := some [] }
    match s1.experimentsJs with
    | none => (s1, false)
    | some _ =>
      let s2 : CoreState := { s1 with experimentsJs := some resetExperimentsJs }
      let s3 : CoreState :=
        match s2.tempApi with
        | none => s2
        | some api =>
          let s2a : CoreState := { s2 with tempApi := some (api.filter (fun e => !e.2)) }
          match s2a.tempFe with
          | none => s2a
          | some fe => { s2a with tempFe := some (fe.filter (fun e => !e.2)) }
      match s3.compose with
      | none => (s3, false)
      | some services =>
        ({ s3 with compose := some (removeManagedServices services) }, true)

/-! ### packAndInstall (lines 8-62) -/

/-- `package.json` contents: the `name` field the code rewrites, plus the
remaining fields kept opaque. -/
structure Manifest where
  name : String
  rest : String
deriving DecidableEq, Repr

/-- The files of one component source directory (`packDir`) that
`packAndInstall` touches, plus the staged artifact locations. -/
structure PackDirState where
  packageJson : Option Manifest
  packageJsonBak : Option Manifest
  tarballInPackDir : Bool
  tarballInInstallDir : Bool
deriving DecidableEq, Repr

/-- Success/failure of each external step of `packAndInstall`:
`fs.copyFileSync` (line 17), `fs.readFile` + `JSON.parse` (lines 20-22: a read
error leaves `data` undefined, so `JSON.parse` throws and both failures surface
as the parse failure), `fs.writeFile` (line 27), `exec('npm run build')`
(line 32), `execSync('npm pack')` (line 35). -/
structure PackOracle where
  copyOk : Bool
  readParseOk : Bool
  writeOk : Bool
  buildOk : Bool
  packOk : Bool
deriving DecidableEq, Repr

/-- Observable outcomes of `packAndInstall`: the caller-supplied callback
invoked with an error (via `fail`, lines 10-12), the callback invoked with the
generated unique module name (line 54), or an uncaught throw. -/
inductive PackEvent
  | cbError (reason : String)
  | cbSuccess (moduleName : String)
  | crash
deriving DecidableEq, Repr

/-- Lines 8-62, with `u` the string returned by `uuid()`.

The control flow transcribed: back up `package.json` (lines 15-18; on failure,
`fail` and return with nothing mutated); read and parse it (lines 20-23);
overwrite the `name` field with the unique name and write it back (lines
24-29); run `npm run build` (lines 32-34).  Then line 35 calls
`execSync('npm pack', { cwd: packDir }, (err, stdout, stdin) => {...})`:
`execSync` is synchronous and takes no callback, so the third argument — the
entire continuation of lines 35-58 that would read the packed file name, move
the tarball into `installDir`, delete the mutated `package.json`, rename the
backup into place and finally invoke `callback(undefined, uniqueName)` — is
discarded and never runs.  `execSync` throws on a nonzero exit and there is no
enclosing try/catch, so a failing `npm pack` is an uncaught throw; a succeeding
one leaves the tarball in `packDir` and the function simply ends with the
mutated `package.json` in place and no callback invocation. -/
def packAndInstall (st : PackDirState) (o : PackOracle) (u : String) :
    PackDirState × List PackEvent :=
  if !o.copyOk then (st, [.cbError "Failed to backup package.json"])
  else
    let st1 : PackDirState := { st with packageJsonBak := st.packageJson }
    if !o.readParseOk then (st1, [.cbError "Failed to parse package.json"])
    else
      match st1.packageJson with
      | none => (st1, [.cbError "Failed to parse package.json"])
      | some m =>
        if !o.writeOk then (st1, [.cbError "Failed to write new package.json"])
        else
          let st2 : PackDirState :=
            { st1 with packageJson := some { m with name := packAndInstallUniqueName u } }
          if !o.buildOk then (st2, [.cbError "Failed to run npm build"])
          else if !o.packOk then (st2, [.crash])
          else ({ st2 with tarballInPackDir := true }, [])

/-! ### The tasks-array barrier (lines 147-156 and 213-223)

Both `prepApi` and the top-level prep function coordinate their fan-in with
the same pattern: a `tasks` array used as a counter (`startTask` pushes,
`finishTask` pops and fires the success continuation when `tasks.length == 0`
afterwards), plus a `fail` closure that invokes the failure continuation
(`callback(new Error(...))`) unconditionally — there is no latch recording
that a terminal continuation already fired, and `fail` does not consume a task
slot.  `runBarrier n ops` plays an arbitrary interleaving of decrement
(`finishTask`) and `fail` calls against a counter that starts at the expected
count `n` (all `startTask` calls happen synchronously before any completion
runs), recording each firing of a terminal continuation.  `Array.prototype.pop`
on an empty array leaves the length at `0`, which `Nat` subtraction mirrors. -/

inductive BarrierOp
  | dec
  | fail
deriving DecidableEq, Repr

inductive BarrierEvent
  | success
  | failure
deriving DecidableEq, Repr

def runBarrier : Nat → List BarrierOp → List BarrierEvent
  | _, [] => []
  | t, .dec :: ops => (if t - 1 = 0 then [.success] else []) ++ runBarrier (t - 1) ops
  | t, .fail :: ops => .failure :: runBarrier t ops

def isDecOp : BarrierOp → Bool
  | .dec => true
  | .fail => false

def isFailOp : BarrierOp → Bool
  | .dec => false
  | .fail => true

def isSuccessEv : BarrierEvent → Bool
  | .success => true
  | .failure => false

def isFailureEv : BarrierEvent → Bool
  | .success => false
  | .failure => true

/-! ### prepApi (lines 145-171), modeled per plugin

`prepApi` pushes one task per controller config (line 162, all synchronously,
so the expected count is the number of controller configs), launches one
`packAndInstall` per controller, and in each completion (lines 163-169) either
propagates an error through `fail` (line 147: `callback(new Error(...))`) or
records `{ name: moduleName, mountPath }` and runs `finishTask` (lines
151-156: pop, and when the array empties, `callback(undefined,
contrListAppendix)`). -/

/-- One entry of a plugin descriptor's `apiControllers` list together with the
fate of its packaging: the controller source directory's file state, the
outcomes of the external steps, and the `uuid()` value drawn for it. -/
structure CtrlSpec where
  mountPath : String
  dirState : PackDirState
  oracle : PackOracle
  uuid : String
deriving DecidableEq, Repr

/-- The closure state of one `prepApi` call: its `tasks` array length and its
`contrListAppendix` accumulator. -/
structure ApiState where
  tasks : Nat
  contrListAppendix : List ContrEntry
deriving DecidableEq, Repr

/-- The completions that one `prepApi` call will eventually process: for each
controller, the events its `packAndInstall` call surfaces (paired with the
controller's `mountPath`, which the continuation at line 167 captures). -/
def apiJobsOf (ctrls : List CtrlSpec) : List (String × PackEvent) :=
  ctrls.flatMap fun c =>
    ((packAndInstall c.dirState c.oracle c.uuid).2).map (fun e => (c.mountPath, e))

/-- Observable outcomes of one `prepApi` call: its callback invoked with an
error, invoked with the accumulated controller list, or an uncaught throw. -/
inductive ApiEvent
  | cbError
  | cbOk (entries : List ContrEntry)
  | crash
deriving DecidableEq, Repr

/-- Lines 163-169 (the `packAndInstall` continuation inside `prepApi`) plus
lines 151-156 (`finishTask`): an error runs `fail`; a success appends the
entry (line 167) and then pops the task, firing the callback when the array
empties. -/
def runApiJob (st : ApiState) (j : String × PackEvent) : ApiState × List ApiEvent :=
  match j.2 with
  | .cbError _ => (st, [.cbError])
  | .crash => (st, [.crash])
  | .cbSuccess m =>
    let st1 : ApiState :=
      { tasks := st.tasks - 1, contrListAppendix := st.contrListAppendix ++ [⟨m, j.1⟩] }
    if st1.tasks = 0 then (st1, [.cbOk st1.contrListAppendix]) else (st1, [])

def runApiJobs : ApiState → List (String × PackEvent) → ApiState × List ApiEvent
  | st, [] => (st, [])
  | st, j :: js =>
    let r := runApiJob st j
    let r2 := runApiJobs r.1 js
    (r2.1, r.2 ++ r2.2)

/-- Line 158-162: `startTask()` runs once per controller config before any
completion, so `tasks.length` is the number of controllers when the first
completion runs. -/
def prepApiInit (ctrls : List CtrlSpec) : ApiState := ⟨ctrls.length, []⟩

/-- A full `prepApi` call on the given controller configs, with the pending
completions processed in the given order. -/
def prepApiRun (ctrls : List CtrlSpec) (order : List (String × PackEvent)) :
    List ApiEvent :=
  (runApiJobs (prepApiInit ctrls) order).2

/-! ### The top-level prep function (lines 211-335) -/

/-- What `fs.readdirSync(experimentsDir)` reveals about one entry: not a
directory (skipped at line 297), a directory whose `config.yaml` fails to load
or parse (lines 300-303), or a well-formed plugin: its controller specs, its
web-page packaging (also a `packAndInstall` call, via `prepWeb`), its worker's
`docker build` outcome, the `uuid()` drawn for the worker name, and the
worker's base service definition from the descriptor. -/
inductive DirSpec
  | notDir
  | malformed
  | plugin (ctrls : List CtrlSpec) (web : CtrlSpec) (workerBuildOk : Bool)
      (workerUuid : String) (workerService : Service)
deriving DecidableEq, Repr

def isMalformedDir : DirSpec → Bool
  | .malformed => true
  | _ => false

def isPluginDir : DirSpec → Bool
  | .plugin _ _ _ _ _ => true
  | _ => false

/-- The reason carried by a top-level `callback(new Error(...))` invocation. -/
inductive FailReason
  | cleanupFail
  | descriptorLoad
  | prepApiFail
  | prepWebFail
  | prepWorkerFail
  | webIncludeFail
  | composeLoadFail
  | composeDumpFail
deriving DecidableEq, Repr

/-- Observable events of one whole prep run. -/
inductive RunEvent
  | cbError (r : FailReason)
  | cbSuccess
  | crash
  | linkStarted
  | wroteControllers (entries : List ContrEntry)
  | wroteWebIncludes (count : Nat)
  | installedApiPackages
  | installedFePackages
  | rebuildApiStarted
  | rebuildFeStarted
  | wroteCompose (services : List (String × Service))
deriving DecidableEq, Repr

/-- Success/failure of each external step of the commit-and-rebuild section of
the top-level `finishTask` (lines 224-282), plus the `services` map of the
main compose file as read at line 243. -/
structure CommitOracle where
  writeControllersOk : Bool
  includeWebsOk : Bool
  composeLoadOk : Bool
  composeDumpOk : Bool
  composeWriteOk : Bool
  installApiOk : Bool
  installFeOk : Bool
  composeServices : List (String × Service)
deriving DecidableEq, Repr

/-- Lines 224-282: the body of the top-level `finishTask` once `tasks` empties.

Transcription notes, keyed to the source:
* line 227 `fs.writeFile(controllersJsonFile, ...)`: the rest of the block is
  its continuation; a write error takes the `if (err) return fail('Failed to
  write api controllers list', e)` branch (line 228) whose `e` is an unbound
  identifier, so that branch is an uncaught `ReferenceError` — a crash, not a
  callback invocation;
* lines 231-238: `includeInModuleList` (synchronous `writeFileSync`) once per
  accumulated web include, inside try/catch → `fail` on error;
* lines 241-250: load the compose file (`fail` on error), assign
  `compFile.services[serviceName] = serviceContent` for every accumulated
  worker (line 246), dump (`fail` on error);
* lines 251-253: `fs.writeFile` of the compose file is asynchronous, so the
  synchronous rebuild section below runs first and the write's continuation
  runs after it; its error branch (line 252) again references the unbound `e`
  (a crash);
* lines 256-281: `var prepping = 2`, then
  `execSync('npm install *', { cwd: ... }, err => {...})` twice.  `execSync`
  is synchronous, throws on failure (uncaught here — a crash), and takes no
  callback: the two callback arguments — which contain the only calls to
  `exec('npm run build')` (lines 261 and 273), the `prepping` decrements, and
  the only invocations of the top-level success `callback()` (lines 267 and
  279) — are discarded and never run.  So on success of both installs the
  section simply ends: no rebuild is ever launched and the top-level callback
  is never invoked. -/
def commitAndRebuild (newApiControllers : List ContrEntry)
    (newWebPageIncludes : List String)
    (newWorkerServices : List (String × Service)) (o : CommitOracle) :
    List RunEvent :=
  .linkStarted ::
    (if !o.writeControllersOk then [.crash]
     else
       .wroteControllers newApiControllers ::
         (if !o.includeWebsOk then [.cbError .webIncludeFail]
          else
            .wroteWebIncludes newWebPageIncludes.length ::
              (if !o.composeLoadOk then [.cbError .composeLoadFail]
               else
                 let merged := newWorkerServices.foldl
                   (fun acc ws => assocSet acc ws.1 ws.2) o.composeServices
                 if !o.composeDumpOk then [.cbError .composeDumpFail]
                 else if !o.installApiOk then [.crash]
                 else
                   .installedApiPackages ::
                     (if !o.installFeOk then [.crash]
                      else
                        .installedFePackages ::
                          (if !o.composeWriteOk then [.crash]
                           else [.wroteCompose merged])))))

/-- The closure state of the top-level prep function: the `tasks` array length
(line 214), the three accumulators (lines 217-219), and the per-plugin
`prepApi` closure states, indexed by plugin order of discovery. -/
structure OrchState where
  tasks : Nat
  newApiControllers : List ContrEntry
  newWebPageIncludes : List String
  newWorkerServices : List (String × Service)
  apiStates : List ApiState
deriving DecidableEq, Repr

/-- Lines 220-223 (the top-level `finishTask` before the commit block): pop,
and when the array empties, run the commit-and-rebuild section. -/
def topFinishTask (co : CommitOracle) (st : OrchState) : OrchState × List RunEvent :=
  let st1 : OrchState := { st with tasks := st.tasks - 1 }
  if st1.tasks = 0 then
    (st1, commitAndRebuild st1.newApiControllers st1.newWebPageIncludes
      st1.newWorkerServices co)
  else (st1, [])

/-- A pending asynchronous completion of the run: one controller
`packAndInstall` surfacing inside plugin `i`'s `prepApi`, the web-page
`packAndInstall` surfacing through `prepWeb`'s callback (lines 177-186 and
317-323), or the worker's `docker build` callback (lines 196-205 and 327-333,
carrying the generated worker name and the descriptor's base service
definition). -/
inductive Job
  | apiDone (i : Nat) (mountPath : String) (ev : PackEvent)
  | webDone (i : Nat) (ev : PackEvent)
  | workerDone (i : Nat) (ok : Bool) (workerName : String) (svc : Service)
deriving DecidableEq, Repr

def isWorkerJob : Job → Bool
  | .workerDone _ _ _ _ => true
  | _ => false

/-- The completions one well-formed plugin directory will eventually feed the
event loop. -/
def pluginJobs (i : Nat) (ctrls : List CtrlSpec) (web : CtrlSpec)
    (workerBuildOk : Bool) (workerUuid : String) (workerService : Service) :
    List Job :=
  (ctrls.flatMap fun c =>
      ((packAndInstall c.dirState c.oracle c.uuid).2).map (.apiDone i c.mountPath))
    ++ ((packAndInstall web.dirState web.oracle web.uuid).2).map (.webDone i)
    ++ [.workerDone i workerBuildOk (prepWorkerNameOf workerUuid) workerService]

def pluginsOf (dirs : List DirSpec) :
    List (List CtrlSpec × CtrlSpec × Bool × String × Service) :=
  dirs.filterMap fun d =>
    match d with
    | .plugin ctrls web wOk wUuid wSvc => some (ctrls, web, wOk, wUuid, wSvc)
    | _ => none

def jobsOf (dirs : List DirSpec) : List Job :=
  (pluginsOf dirs).enum.flatMap fun ip =>
    pluginJobs ip.1 ip.2.1 ip.2.2.1 ip.2.2.2.1 ip.2.2.2.2.1 ip.2.2.2.2.2

/-- The synchronous pass of lines 293-334: for each directory entry in
discovery order, a malformed `config.yaml` runs `fail` — `callback(new
Error(...))` — and `return` only leaves that `forEach` iteration, so the loop
continues with the remaining entries; well-formed plugins only start tasks and
launch asynchronous work, producing no events yet. -/
def syncEvents (dirs : List DirSpec) : List RunEvent :=
  dirs.flatMap fun d =>
    match d with
    | .malformed => [.cbError .descriptorLoad]
    | _ => []

/-- The top-level closure state right after the synchronous pass: three tasks
were started per well-formed plugin (lines 306, 316, 326), the accumulators
are empty, and each plugin's `prepApi` holds one task per controller. -/
def initOrchState (dirs : List DirSpec) : OrchState :=
  { tasks := 3 * (pluginsOf dirs).length
    newApiControllers := []
    newWebPageIncludes := []
    newWorkerServices := []
    apiStates := (pluginsOf dirs).map (fun p => prepApiInit p.1) }

def getApiState (l : List ApiState) (i : Nat) : ApiState :=
  (l.get? i).getD ⟨0, []⟩

/-- One asynchronous completion, transcribing the callback bodies:
* `apiDone` — the continuation at lines 163-169 runs inside plugin `i`'s
  `prepApi`; an error reaches the orchestrator callback at lines 307-309
  (`fail`); a success appends the entry and runs `prepApi`'s `finishTask`,
  and if that fires, the orchestrator callback at lines 310-312 appends the
  entries and runs the top-level `finishTask`;
* `webDone` — lines 177-186 then 317-323: error → top-level `fail`; success →
  record the include and run the top-level `finishTask`;
* `workerDone` — lines 196-205 then 327-333: build failure → top-level `fail`;
  success → record `(workerName, serviceContent)` (with `serviceContent` built
  by lines 202-203) and run the top-level `finishTask`. -/
def runJob (co : CommitOracle) (st : OrchState) (j : Job) : OrchState × List RunEvent :=
  match j with
  | .apiDone i mp ev =>
    match ev with
    | .cbError _ => (st, [.cbError .prepApiFail])
    | .crash => (st, [.crash])
    | .cbSuccess m =>
      let a := getApiState st.apiStates i
      let a1 : ApiState :=
        { tasks := a.tasks - 1, contrListAppendix := a.contrListAppendix ++ [⟨m, mp⟩] }
      let st1 : OrchState := { st with apiStates := st.apiStates.set i a1 }
      if a1.tasks = 0 then
        let st2 : OrchState :=
          { st1 with newApiControllers := st1.newApiControllers ++ a1.contrListAppendix }
        topFinishTask co st2
      else (st1, [])
  | .webDone i ev =>
    match ev with
    | .cbError _ => (st, [.cbError .prepWebFail])
    | .crash => (st, [.crash])
    | .cbSuccess m =>
      topFinishTask co { st with newWebPageIncludes := st.newWebPageIncludes ++ [m] }
  | .workerDone i ok workerName svc =>
    if ok then
      topFinishTask co
        { st with
          newWorkerServices :=
            st.newWorkerServices ++ [(workerName, prepWorkerService svc workerName)] }
    else (st, [.cbError .prepWorkerFail])

def runJobs (co : CommitOracle) : OrchState → List Job → OrchState × List RunEvent
  | st, [] => (st, [])
  | st, j :: js =>
    let r := runJob co st j
    let r2 := runJobs co r.1 js
    (r2.1, r.2 ++ r2.2)

/-- One whole run of the default export (lines 211-335): `cleanUpSync` first
(lines 290-292; a throw there is caught and aborts the run with `fail` — this
`return` really does leave the function), then the synchronous directory pass,
then the pending asynchronous completions in an arbitrary order `order`. -/
def runOrchestrator (cleanupOk : Bool) (dirs : List DirSpec) (co : CommitOracle)
    (order : List Job) : List RunEvent :=
  if !cleanupOk then [.cbError .cleanupFail]
  else syncEvents dirs ++ (runJobs co (initOrchState dirs) order).2

/-- The only events the asynchronous phase of a run can produce while the
commit block stays unreachable. -/
def allowedEvent : RunEvent → Bool
  | .cbError .prepApiFail => true
  | .cbError .prepWebFail => true
  | .cbError .prepWorkerFail => true
  | .crash => true
  | _ => false

/-! ### Helper lemmas -/

theorem assocGet_set_self {α : Type} (l : List (String × α)) (k : String) (v : α) :
    assocGet (assocSet l k v) k = some v := by
  induction l with
  | nil => simp [assocSet, assocGet]
  | cons p rest ih =>
    obtain ⟨pk, pv⟩ := p
    by_cases h : pk = k
    · simp [assocSet, assocGet, h]
    · simp [assocSet, assocGet, h, ih]

theorem assocGet_set_ne {α : Type} (l : List (String × α)) (k k' : String) (v : α)
    (h : k' ≠ k) : assocGet (assocSet l k v) k' = assocGet l k' := by
  induction l with
  | nil => simp [assocSet, assocGet, Ne.symm h]
  | cons p rest ih =>
    obtain ⟨pk, pv⟩ := p
    by_cases hpk : pk = k
    · subst hpk
      simp [assocSet, assocGet, Ne.symm h]
    · by_cases hpk' : pk = k'
      · simp [assocSet, assocGet, hpk, hpk', h]
      · simp [assocSet, assocGet, hpk, hpk', ih]

theorem filter_idem {α : Type} (p : α → Bool) (l : List α) :
    (l.filter p).filter p = l.filter p := by
  induction l with
  | nil => rfl
  | cons a l ih => by_cases h : p a <;> simp [List.filter_cons, h, ih]

theorem filter_dashfree (s : List Char) (hs : ∀ c ∈ s, c ≠ '-') :
    s.filter (fun c => c ≠ '-') = s := by
  apply List.filter_eq_self.mpr
  intro a ha
  simpa using hs a ha

theorem filter_dash_cons (t : List Char) :
    ('-' :: t).filter (fun c => c ≠ '-') = t.filter (fun c => c ≠ '-') := by
  simp

theorem insertDashes_filter (l : List Char) (hnd : ∀ c ∈ l, c ≠ '-') :
    (insertDashes l).filter (fun c => c ≠ '-') = l := by
  have h1 : (l.take 8).filter (fun c => c ≠ '-') = l.take 8 :=
    filter_dashfree _ (fun c hc => hnd c (List.take_subset _ _ hc))
  have h2 : ((l.drop 8).take 4).filter (fun c => c ≠ '-') = (l.drop 8).take 4 :=
    filter_dashfree _ (fun c hc => hnd c (List.drop_subset _ _ (List.take_subset _ _ hc)))
  have h3 : ((l.drop 12).take 4).filter (fun c => c ≠ '-') = (l.drop 12).take 4 :=
    filter_dashfree _ (fun c hc => hnd c (List.drop_subset _ _ (List.take_subset _ _ hc)))
  have h4 : ((l.drop 16).take 4).filter (fun c => c ≠ '-') = (l.drop 16).take 4 :=
    filter_dashfree _ (fun c hc => hnd c (List.drop_subset _ _ (List.take_subset _ _ hc)))
  have h5 : (l.drop 20).filter (fun c => c ≠ '-') = l.drop 20 :=
    filter_dashfree _ (fun c hc => hnd c (List.drop_subset _ _ hc))
  have hd12 : (l.drop 8).drop 4 = l.drop 12 := by
    rw [List.drop_drop]
  have hd16 : (l.drop 12).drop 4 = l.drop 16 := by
    rw [List.drop_drop]
  have hd20 : (l.drop 16).drop 4 = l.drop 20 := by
    rw [List.drop_drop]
  simp only [insertDashes]
  rw [List.filter_append, filter_dash_cons, List.filter_append, filter_dash_cons,
    List.filter_append, filter_dash_cons, List.filter_append, filter_dash_cons]
  rw [h1, h2, h3, h4, h5]
  have e16 : (l.drop 16).take 4 ++ l.drop 20 = l.drop 16 := by
    rw [← hd20]
    exact List.take_append_drop 4 _
  have e12 : (l.drop 12).take 4 ++ l.drop 16 = l.drop 12 := by
    rw [← hd16]
    exact List.take_append_drop 4 _
  have e8 : (l.drop 8).take 4 ++ l.drop 12 = l.drop 8 := by
    rw [← hd12]
    exact List.take_append_drop 4 _
  rw [List.append_assoc, List.append_assoc, List.append_assoc, e16, e12, e8,
    List.take_append_drop]

theorem string_data_inj {s t : String} (h : s.data = t.data) : s = t := by
  cases s
  cases t
  exact congrArg String.mk h

theorem isUuid_strip (s : String) (hs : IsUuidString s) :
    ∃ l : List Char, l.length = 32 ∧ (∀ c ∈ l, c ≠ '-') ∧ s.data = insertDashes l ∧
      (stripDashes s).data = l := by
  obtain ⟨l, hl, hnd, hd⟩ := hs
  refine ⟨l, hl, hnd, hd, ?_⟩
  show s.data.filter (fun c => c ≠ '-') = l
  rw [hd]
  exact insertDashes_filter l hnd

theorem isUuid_strip_inj {s t : String} (hs : IsUuidString s) (ht : IsUuidString t)
    (h : stripDashes s = stripDashes t) : s = t := by
  obtain ⟨ls, _, _, hds, hss⟩ := isUuid_strip s hs
  obtain ⟨lt, _, _, hdt, hst⟩ := isUuid_strip t ht
  have : ls = lt := by rw [← hss, ← hst, h]
  exact string_data_inj (by rw [hds, hdt, this])

theorem string_append_data (a b : String) : (a ++ b).data = a.data ++ b.data := rfl

theorem string_append_left_cancel {a b c : String} (h : a ++ b = a ++ c) : b = c := by
  have hd : a.data ++ b.data = a.data ++ c.data := by
    rw [← string_append_data, ← string_append_data, h]
  exact string_data_inj (List.append_cancel_left hd)

theorem componentName_ne_workerName (a b : String) :
    packAndInstallUniqueName a ≠ prepWorkerNameOf b := by
  intro h
  have h2 := congrArg (fun s => s.data[7]?) h
  simp [packAndInstallUniqueName, prepWorkerNameOf, string_append_data] at h2

theorem roleName_ne {r r' : Role} {u v : String} (hu : IsUuidString u)
    (hv : IsUuidString v) (huv : u ≠ v) : roleName r u ≠ roleName r' v := by
  have hstrip : stripDashes u ≠ stripDashes v := fun h => huv (isUuid_strip_inj hu hv h)
  have hcomp : packAndInstallUniqueName u ≠ packAndInstallUniqueName v := by
    intro h
    exact hstrip (string_append_left_cancel h)
  have hwork : prepWorkerNameOf u ≠ prepWorkerNameOf v := by
    intro h
    exact hstrip (string_append_left_cancel h)
  cases r <;> cases r' <;>
    simp only [roleName] <;>
    first
      | exact hcomp
      | exact hwork
      | exact componentName_ne_workerName v u ∘ Eq.symm
      | exact componentName_ne_workerName u v

theorem assocGet_eq_none_iff {α : Type} (l : List (String × α)) (k : String) :
    assocGet l k = none ↔ k ∉ l.map Prod.fst := by
  induction l with
  | nil => simp [assocGet]
  | cons p rest ih =>
    obtain ⟨pk, pv⟩ := p
    by_cases h : pk = k
    · simp [assocGet, h]
    · simp [assocGet, h, ih, Ne.symm h]

theorem assocGet_of_mem_nodup {α : Type} {l : List (String × α)} {p : String × α}
    (hn : (l.map Prod.fst).Nodup) (hp : p ∈ l) : assocGet l p.1 = some p.2 := by
  induction l with
  | nil => simp at hp
  | cons q rest ih =>
    obtain ⟨qk, qv⟩ := q
    rw [List.map_cons, List.nodup_cons] at hn
    rcases List.mem_cons.mp hp with h | h
    · subst h
      simp [assocGet]
    · have hne : qk ≠ p.1 := by
        intro he
        exact hn.1 (he ▸ List.mem_map.mpr ⟨p, h, rfl⟩)
      simp [assocGet, hne, ih hn.2 h]

theorem packAndInstall_no_cbSuccess (st : PackDirState) (o : PackOracle) (u : String)
    (m : String) : PackEvent.cbSuccess m ∉ (packAndInstall st o u).2 := by
  obtain ⟨c, r, w, b, p⟩ := o
  obtain ⟨pj, bak, t1, t2⟩ := st
  cases c <;> cases r <;> cases w <;> cases b <;> cases p <;> cases pj <;>
    simp [packAndInstall]

theorem runBarrier_counts (ops : List BarrierOp) : ∀ N : Nat,
    ops.countP isDecOp + ops.countP isFailOp ≤ N →
    (runBarrier N ops).countP isSuccessEv
        = (if ops.countP isDecOp = N ∧ 0 < N then 1 else 0) ∧
      (runBarrier N ops).countP isFailureEv = ops.countP isFailOp := by
  induction ops with
  | nil =>
    intro N h
    refine ⟨?_, by simp [runBarrier]⟩
    rw [if_neg (by rintro ⟨h1, h2⟩; simp at h1; omega)]
    simp [runBarrier]
  | cons op ops ih =>
    intro N h
    cases op with
    | dec =>
      have hd : (BarrierOp.dec :: ops).countP isDecOp = ops.countP isDecOp + 1 := by
        simp [List.countP_cons, isDecOp]
      have hf : (BarrierOp.dec :: ops).countP isFailOp = ops.countP isFailOp := by
        simp [List.countP_cons, isFailOp]
      rw [hd, hf] at h ⊢
      have hle : ops.countP isDecOp + ops.countP isFailOp ≤ N - 1 := by omega
      obtain ⟨ihs, ihf⟩ := ih (N - 1) hle
      rw [runBarrier]
      constructor
      · rw [List.countP_append, ihs]
        have hcs : (if N - 1 = 0 then [BarrierEvent.success] else []).countP isSuccessEv
            = if N - 1 = 0 then 1 else 0 := by
          by_cases h0 : N - 1 = 0 <;> simp [h0, isSuccessEv]
        rw [hcs]
        split_ifs <;> omega
      · rw [List.countP_append, ihf]
        have hcf : (if N - 1 = 0 then [BarrierEvent.success] else []).countP isFailureEv
            = 0 := by
          by_cases h0 : N - 1 = 0 <;> simp [h0, isFailureEv]
        rw [hcf]
        omega
    | fail =>
      have hd : (BarrierOp.fail :: ops).countP isDecOp = ops.countP isDecOp := by
        simp [List.countP_cons, isDecOp]
      have hf : (BarrierOp.fail :: ops).countP isFailOp = ops.countP isFailOp + 1 := by
        simp [List.countP_cons, isFailOp]
      rw [hd, hf] at h ⊢
      obtain ⟨ihs, ihf⟩ := ih N (by omega)
      rw [runBarrier]
      constructor
      · rw [List.countP_cons]
        simp only [isSuccessEv]
        rw [ihs]
        simp
      · rw [List.countP_cons]
        simp only [isFailureEv]
        rw [ihf]
        simp

theorem removeFold_eq_filter :
    ∀ (ks : List String) (acc : List (String × Service)), ks.Nodup →
      (acc.map Prod.fst).Nodup →
      ks.foldl
        (fun acc key =>
          match assocGet acc key with
          | some svc => if isManaged svc then assocDelete acc key else acc
          | none => acc)
        acc
      = acc.filter (fun p => !(decide (p.1 ∈ ks) && isManaged p.2)) := by
  intro ks
  induction ks with
  | nil =>
    intro acc _ _
    simp
  | cons k ks ih =>
    intro acc hks hacc
    rw [List.nodup_cons] at hks
    rw [List.foldl_cons]
    cases hget : assocGet acc k with
    | none =>
      have hk : k ∉ acc.map Prod.fst := (assocGet_eq_none_iff acc k).mp hget
      rw [ih acc hks.2 hacc]
      apply List.filter_congr
      intro p hp
      have hpk : p.1 ≠ k := by
        intro he
        exact hk (he ▸ List.mem_map.mpr ⟨p, hp, rfl⟩)
      simp [hpk]
    | some svc =>
      dsimp only
      by_cases hm : isManaged svc
      · rw [if_pos hm]
        have hdel : ((assocDelete acc k).map Prod.fst).Nodup := by
          apply List.Nodup.sublist _ hacc
          exact List.Sublist.map Prod.fst (List.filter_sublist acc)
        rw [ih (assocDelete acc k) hks.2 hdel]
        rw [assocDelete, List.filter_filter]
        apply List.filter_congr
        intro p hp
        by_cases hpk : p.1 = k
        · have hsvc : p.2 = svc := by
            have := assocGet_of_mem_nodup hacc hp
            rw [hpk, hget] at this
            exact (Option.some.inj this).symm
          simp [hpk, hsvc, hm]
        · simp [hpk]
      · rw [if_neg hm]
        rw [ih acc hks.2 hacc]
        apply List.filter_congr
        intro p hp
        by_cases hpk : p.1 = k
        · have hsvc : p.2 = svc := by
            have := assocGet_of_mem_nodup hacc hp
            rw [hpk, hget] at this
            exact (Option.some.inj this).symm
          simp [hpk, hsvc, hm, hks.1]
        · simp [hpk]

theorem removeManagedServices_eq_filter (services : List (String × Service))
    (hn : (services.map Prod.fst).Nodup) :
    removeManagedServices services = services.filter (fun p => !isManaged p.2) := by
  rw [removeManagedServices, removeFold_eq_filter (services.map Prod.fst) services hn hn]
  apply List.filter_congr
  intro p hp
  simp [List.mem_map.mpr ⟨p, hp, rfl⟩]

theorem removeManagedServices_unmanaged (services : List (String × Service))
    (hn : (services.map Prod.fst).Nodup) :
    ∀ p ∈ removeManagedServices services, isManaged p.2 = false := by
  rw [removeManagedServices_eq_filter services hn]
  intro p hp
  have := List.of_mem_filter hp
  simpa using this

theorem removeManagedServices_idem (services : List (String × Service))
    (hn : (services.map Prod.fst).Nodup) :
    removeManagedServices (removeManagedServices services)
      = removeManagedServices services := by
  have hn2 : ((removeManagedServices services).map Prod.fst).Nodup := by
    rw [removeManagedServices_eq_filter services hn]
    exact List.Nodup.sublist (List.Sublist.map Prod.fst (List.filter_sublist services)) hn
  rw [removeManagedServices_eq_filter _ hn2, removeManagedServices_eq_filter services hn,
    filter_idem]

theorem pluginJobs_api_no_success (i i' : Nat) (mp m : String) (ctrls : List CtrlSpec)
    (web : CtrlSpec) (wOk : Bool) (wUuid : String) (wSvc : Service) :
    Job.apiDone i mp (.cbSuccess m) ∉ pluginJobs i' ctrls web wOk wUuid wSvc := by
  intro h
  simp only [pluginJobs, List.mem_append, List.mem_flatMap, List.mem_map,
    List.mem_singleton] at h
  rcases h with (⟨c, hc, e, he, heq⟩ | ⟨e, he, heq⟩) | heq
  · cases heq
    exact packAndInstall_no_cbSuccess c.dirState c.oracle c.uuid m he
  · cases heq
  · cases heq

theorem pluginJobs_web_no_success (i i' : Nat) (m : String) (ctrls : List CtrlSpec)
    (web : CtrlSpec) (wOk : Bool) (wUuid : String) (wSvc : Service) :
    Job.webDone i (.cbSuccess m) ∉ pluginJobs i' ctrls web wOk wUuid wSvc := by
  intro h
  simp only [pluginJobs, List.mem_append, List.mem_flatMap, List.mem_map,
    List.mem_singleton] at h
  rcases h with (⟨c, hc, e, he, heq⟩ | ⟨e, he, heq⟩) | heq
  · cases heq
  · cases heq
    exact packAndInstall_no_cbSuccess web.dirState web.oracle web.uuid m he
  · cases heq

theorem jobsOf_api_no_success (dirs : List DirSpec) (i : Nat) (mp m : String) :
    Job.apiDone i mp (.cbSuccess m) ∉ jobsOf dirs := by
  intro h
  simp only [jobsOf, List.mem_flatMap] at h
  obtain ⟨ip, _, hmem⟩ := h
  exact pluginJobs_api_no_success i ip.1 mp m _ _ _ _ _ hmem

theorem jobsOf_web_no_success (dirs : List DirSpec) (i : Nat) (m : String) :
    Job.webDone i (.cbSuccess m) ∉ jobsOf dirs := by
  intro h
  simp only [jobsOf, List.mem_flatMap] at h
  obtain ⟨ip, _, hmem⟩ := h
  exact pluginJobs_web_no_success i ip.1 m _ _ _ _ _ hmem

theorem pluginJobs_workerCount (i : Nat) (ctrls : List CtrlSpec) (web : CtrlSpec)
    (wOk : Bool) (wUuid : String) (wSvc : Service) :
    (pluginJobs i ctrls web wOk wUuid wSvc).countP isWorkerJob = 1 := by
  rw [pluginJobs, List.countP_append, List.countP_append]
  have hA : (ctrls.flatMap fun c =>
      ((packAndInstall c.dirState c.oracle c.uuid).2).map (.apiDone i c.mountPath)).countP
        isWorkerJob = 0 := by
    apply List.countP_eq_zero.mpr
    intro j hj
    simp only [List.mem_flatMap, List.mem_map] at hj
    obtain ⟨c, _, e, _, rfl⟩ := hj
    simp [isWorkerJob]
  have hB : (((packAndInstall web.dirState web.oracle web.uuid).2).map
      (.webDone i)).countP isWorkerJob = 0 := by
    apply List.countP_eq_zero.mpr
    intro j hj
    simp only [List.mem_map] at hj
    obtain ⟨e, _, rfl⟩ := hj
    simp [isWorkerJob]
  rw [hA, hB]
  simp [isWorkerJob]

theorem jobsOf_workerCount (dirs : List DirSpec) :
    (jobsOf dirs).countP isWorkerJob = (pluginsOf dirs).length := by
  rw [jobsOf]
  have h : ∀ l : List (Nat × (List CtrlSpec × CtrlSpec × Bool × String × Service)),
      (l.flatMap fun ip =>
        pluginJobs ip.1 ip.2.1 ip.2.2.1 ip.2.2.2.1 ip.2.2.2.2.1 ip.2.2.2.2.2).countP
          isWorkerJob = l.length := by
    intro l
    induction l with
    | nil => rfl
    | cons a l ih =>
      rw [List.flatMap_cons, List.countP_append, ih, pluginJobs_workerCount]
      simp [Nat.add_comm]
  rw [h, List.enum_length]

theorem allowedEvent_facts {e : RunEvent} (h : allowedEvent e = true) :
    e ≠ .cbError .descriptorLoad ∧ e ≠ .linkStarted ∧ e ≠ .cbSuccess := by
  cases e with
  | cbError r => cases r <;> simp_all [allowedEvent]
  | _ => simp_all [allowedEvent]

theorem runJob_workerTrue (co : CommitOracle) (st : OrchState) (i : Nat) (nm : String)
    (svc : Service) (h : 2 ≤ st.tasks) :
    runJob co st (.workerDone i true nm svc)
      = ({ st with
            tasks := st.tasks - 1
            newWorkerServices :=
              st.newWorkerServices ++ [(nm, prepWorkerService svc nm)] }, []) := by
  have hc : ¬(st.tasks - 1 = 0) := by omega
  simp [runJob, topFinishTask, hc]

theorem runJobs_safe (co : CommitOracle) (P : Nat) :
    ∀ (js : List Job) (st : OrchState),
      (∀ i mp m, Job.apiDone i mp (.cbSuccess m) ∉ js) →
      (∀ i m, Job.webDone i (.cbSuccess m) ∉ js) →
      js.countP isWorkerJob ≤ P →
      2 * P + js.countP isWorkerJob ≤ st.tasks →
      ∀ e ∈ (runJobs co st js).2, allowedEvent e = true := by
  intro js
  induction js with
  | nil =>
    intro st _ _ _ _ e he
    simp [runJobs] at he
  | cons j js ih =>
    intro st hapi hweb hwc htask e he
    rw [runJobs] at he
    have hapi' : ∀ i mp m, Job.apiDone i mp (.cbSuccess m) ∉ js :=
      fun i mp m h => hapi i mp m (List.mem_cons_of_mem _ h)
    have hweb' : ∀ i m, Job.webDone i (.cbSuccess m) ∉ js :=
      fun i m h => hweb i m (List.mem_cons_of_mem _ h)
    cases j with
    | apiDone i mp ev =>
      have hcount : (Job.apiDone i mp ev :: js).countP isWorkerJob
          = js.countP isWorkerJob := by
        simp [List.countP_cons, isWorkerJob]
      rw [hcount] at hwc htask
      cases ev with
      | cbSuccess m => exact absurd (List.mem_cons_self _ _) (hapi i mp m)
      | cbError r =>
        simp only [runJob] at he
        rcases List.mem_append.mp he with h1 | h1
        · rcases List.mem_singleton.mp h1 with rfl
          rfl
        · exact ih st hapi' hweb' hwc htask e h1
      | crash =>
        simp only [runJob] at he
        rcases List.mem_append.mp he with h1 | h1
        · rcases List.mem_singleton.mp h1 with rfl
          rfl
        · exact ih st hapi' hweb' hwc htask e h1
    | webDone i ev =>
      have hcount : (Job.webDone i ev :: js).countP isWorkerJob
          = js.countP isWorkerJob := by
        simp [List.countP_cons, isWorkerJob]
      rw [hcount] at hwc htask
      cases ev with
      | cbSuccess m => exact absurd (List.mem_cons_self _ _) (hweb i m)
      | cbError r =>
        simp only [runJob] at he
        rcases List.mem_append.mp he with h1 | h1
        · rcases List.mem_singleton.mp h1 with rfl
          rfl
        · exact ih st hapi' hweb' hwc htask e h1
      | crash =>
        simp only [runJob] at he
        rcases List.mem_append.mp he with h1 | h1
        · rcases List.mem_singleton.mp h1 with rfl
          rfl
        · exact ih st hapi' hweb' hwc htask e h1
    | workerDone i ok nm svc =>
      have hcount : (Job.workerDone i ok nm svc :: js).countP isWorkerJob
          = js.countP isWorkerJob + 1 := by
        simp [List.countP_cons, isWorkerJob]
      rw [hcount] at hwc htask
      cases ok with
      | false =>
        simp only [runJob] at he
        rcases List.mem_append.mp he with h1 | h1
        · rcases List.mem_singleton.mp h1 with rfl
          rfl
        · exact ih st hapi' hweb' (by omega) (by omega) e h1
      | true =>
        rw [runJob_workerTrue co st i nm svc (by omega)] at he
        rcases List.mem_append.mp he with h1 | h1
        · simp at h1
        · exact ih _ hapi' hweb' (by omega) (by simp; omega) e h1

theorem syncEvents_mem (dirs : List DirSpec) :
    ∀ e ∈ syncEvents dirs, e = RunEvent.cbError FailReason.descriptorLoad := by
  intro e he
  simp only [syncEvents, List.mem_flatMap] at he
  obtain ⟨d, _, hmem⟩ := he
  cases d <;> simp_all

theorem syncEvents_descriptor_count (dirs : List DirSpec) :
    (syncEvents dirs).countP (fun e => e = RunEvent.cbError FailReason.descriptorLoad)
      = dirs.countP isMalformedDir := by
  induction dirs with
  | nil => rfl
  | cons d dirs ih =>
    have hstep : syncEvents (d :: dirs)
        = (match d with
            | DirSpec.malformed => [RunEvent.cbError FailReason.descriptorLoad]
            | _ => []) ++ syncEvents dirs := by
      simp [syncEvents]
    rw [hstep, List.countP_append, ih, List.countP_cons]
    cases d <;> simp [isMalformedDir, List.countP_cons] <;> omega

theorem commitAndRebuild_dead (a : List ContrEntry) (w : List String)
    (s : List (String × Service)) (o : CommitOracle) :
    RunEvent.cbSuccess ∉ commitAndRebuild a w s o ∧
      RunEvent.rebuildApiStarted ∉ commitAndRebuild a w s o ∧
      RunEvent.rebuildFeStarted ∉ commitAndRebuild a w s o := by
  obtain ⟨w1, w2, w3, w4, w5, w6, w7, cs⟩ := o
  cases w1 <;> cases w2 <;> cases w3 <;> cases w4 <;> cases w5 <;> cases w6 <;> cases w7 <;>
    simp [commitAndRebuild]

/-! ### Claims -/

/-- C1, counterexample to the claim as stated: on the code's tasks-array
barrier, two `fail` calls with expected count 2 fire the failure continuation
twice (the claim says the failure continuation fires exactly once, on the
first `fail`, and everything after the first terminal firing is a no-op); and
with expected count 1, a `fail` followed by a decrement fires the failure
continuation and then the success continuation (the claim says that once the
failure continuation has fired, the success continuation never fires even if
decrements reach zero). -/
theorem claim_C1_counterexample :
    runBarrier 2 [BarrierOp.fail, BarrierOp.fail]
        = [BarrierEvent.failure, BarrierEvent.failure] ∧
      runBarrier 1 [BarrierOp.fail, BarrierOp.dec]
        = [BarrierEvent.failure, BarrierEvent.success] := by
  decide

/-- C1 (amended): under the discipline the call sites obey — each of the `N`
expected operations makes at most one call, a decrement on success or a `fail`
on error, so decrements plus fails total at most `N` — the success
continuation fires exactly once, and only when `N` is positive and all `N`
operations decrement; in particular any `fail` call permanently prevents the
success continuation.  The failure continuation, however, fires once per
`fail` call, not only on the first. -/
theorem claim_C1_theorem (N : Nat) (ops : List BarrierOp)
    (h : ops.countP isDecOp + ops.countP isFailOp ≤ N) :
    (runBarrier N ops).countP isSuccessEv
        = (if ops.countP isDecOp = N ∧ 0 < N then 1 else 0) ∧
      (runBarrier N ops).countP isFailureEv = ops.countP isFailOp ∧
      (0 < ops.countP isFailOp → (runBarrier N ops).countP isSuccessEv = 0) := by
  obtain ⟨h1, h2⟩ := runBarrier_counts ops N h
  refine ⟨h1, h2, fun hf => ?_⟩
  rw [h1, if_neg]
  rintro ⟨hd, hN⟩
  omega

/-- C1 witness: a concrete disciplined interleaving (one decrement, one fail,
expected count 2). -/
theorem claim_C1_witness :
    ([BarrierOp.dec, BarrierOp.fail].countP isDecOp
        + [BarrierOp.dec, BarrierOp.fail].countP isFailOp ≤ 2) ∧
      ((runBarrier 2 [BarrierOp.dec, BarrierOp.fail]).countP isSuccessEv
          = (if [BarrierOp.dec, BarrierOp.fail].countP isDecOp = 2 ∧ 0 < 2
             then 1 else 0) ∧
        (runBarrier 2 [BarrierOp.dec, BarrierOp.fail]).countP isFailureEv
          = [BarrierOp.dec, BarrierOp.fail].countP isFailOp ∧
        (0 < [BarrierOp.dec, BarrierOp.fail].countP isFailOp →
          (runBarrier 2 [BarrierOp.dec, BarrierOp.fail]).countP isSuccessEv = 0)) :=
  ⟨by decide, claim_C1_theorem 2 [BarrierOp.dec, BarrierOp.fail] (by decide)⟩

/-- C2 (code bug): the commit block writes the three shared artifacts and runs
the two `npm install` steps, but `execSync('npm install *', opts, cb)` at
lines 258 and 270 discards `cb` (`execSync` takes no callback), so the two
`exec('npm run build')` rebuild launches (lines 261, 273), the `prepping`
countdown, and the top-level `callback()` invocations (lines 267, 279) are
dead code: for every input and oracle no rebuild is ever started and the
top-level callback never fires, and on the all-success path the block produces
exactly the write and install events and nothing else. -/
theorem claim_C2_theorem :
    (∀ (a : List ContrEntry) (w : List String) (s : List (String × Service))
        (o : CommitOracle), RunEvent.cbSuccess ∉ commitAndRebuild a w s o) ∧
      (∀ (a : List ContrEntry) (w : List String) (s : List (String × Service))
        (o : CommitOracle), RunEvent.rebuildApiStarted ∉ commitAndRebuild a w s o) ∧
      (∀ (a : List ContrEntry) (w : List String) (s : List (String × Service))
        (o : CommitOracle), RunEvent.rebuildFeStarted ∉ commitAndRebuild a w s o) ∧
      commitAndRebuild [⟨"pushkinComponentabc", "/read"⟩] ["pushkinComponentdef"]
          [("pushkinworkerghi", [("image", SVal.str "pushkinworkerghi")])]
          ⟨true, true, true, true, true, true, true,
            [("db", [("image", SVal.str "postgres")])]⟩
        = [.linkStarted, .wroteControllers [⟨"pushkinComponentabc", "/read"⟩],
            .wroteWebIncludes 1, .installedApiPackages, .installedFePackages,
            .wroteCompose [("db", [("image", SVal.str "postgres")]),
              ("pushkinworkerghi", [("image", SVal.str "pushkinworkerghi")])]] :=
  ⟨fun a w s o => (commitAndRebuild_dead a w s o).1,
    fun a w s o => (commitAndRebuild_dead a w s o).2.1,
    fun a w s o => (commitAndRebuild_dead a w s o).2.2, by decide⟩

/-- C2 witness: the dead-rebuild fact at a concrete input. -/
theorem claim_C2_witness :
    RunEvent.cbSuccess ∉
      commitAndRebuild [] [] [] ⟨true, true, true, true, true, true, true, []⟩ :=
  claim_C2_theorem.1 [] [] [] ⟨true, true, true, true, true, true, true, []⟩

/-- C3, counterexample to the claim as stated: a plugins root with two
malformed plugin directories makes the run invoke its callback with a
descriptor-load failure twice — not "a single DescriptorLoadFailure" (the
`return fail(...)` at line 303 only leaves that `forEach` iteration, so each
malformed descriptor reports separately). -/
theorem claim_C3_counterexample :
    runOrchestrator true [DirSpec.malformed, DirSpec.malformed]
        ⟨true, true, true, true, true, true, true, []⟩ []
      = [RunEvent.cbError FailReason.descriptorLoad,
          RunEvent.cbError FailReason.descriptorLoad] := by
  decide

/-- C3 (amended): on a plugins root with at least one malformed plugin
descriptor, the run invokes its callback with one DescriptorLoadFailure per
malformed plugin (so not necessarily a single one), and — for every outcome of
the other plugins' operations and every completion order — no plugin's
preparation results are ever committed (the `Linking components` commit block
is never entered, so SharedArtifactWriter never runs) and the run's success
path never fires. -/
theorem claim_C3_theorem (dirs : List DirSpec) (co : CommitOracle) (order : List Job)
    (hperm : order.Perm (jobsOf dirs)) (hmal : 1 ≤ dirs.countP isMalformedDir) :
    (runOrchestrator true dirs co order).countP
        (fun e => e = RunEvent.cbError FailReason.descriptorLoad)
      = dirs.countP isMalformedDir ∧
      RunEvent.linkStarted ∉ runOrchestrator true dirs co order ∧
      RunEvent.cbSuccess ∉ runOrchestrator true dirs co order := by
  have hwcount : order.countP isWorkerJob = (pluginsOf dirs).length := by
    rw [hperm.countP_eq, jobsOf_workerCount]
  have hsafe : ∀ e ∈ (runJobs co (initOrchState dirs) order).2, allowedEvent e = true := by
    apply runJobs_safe co (pluginsOf dirs).length order (initOrchState dirs)
    · intro i mp m hmem
      exact jobsOf_api_no_success dirs i mp m (hperm.subset hmem)
    · intro i m hmem
      exact jobsOf_web_no_success dirs i m (hperm.subset hmem)
    · rw [hwcount]
    · rw [hwcount]
      simp [initOrchState]
      omega
  have hrun : runOrchestrator true dirs co order
      = syncEvents dirs ++ (runJobs co (initOrchState dirs) order).2 := by
    simp [runOrchestrator]
  rw [hrun]
  refine ⟨?_, ?_, ?_⟩
  · rw [List.countP_append, syncEvents_descriptor_count]
    have hz : ((runJobs co (initOrchState dirs) order).2).countP
        (fun e => e = RunEvent.cbError FailReason.descriptorLoad) = 0 := by
      apply List.countP_eq_zero.mpr
      intro e he
      have hne := (allowedEvent_facts (hsafe e he)).1
      simpa using hne
    rw [hz]
    omega
  · intro hmem
    rcases List.mem_append.mp hmem with h1 | h1
    · have := syncEvents_mem dirs _ h1
      exact absurd this (by decide)
    · exact (allowedEvent_facts (hsafe _ h1)).2.1 rfl
  · intro hmem
    rcases List.mem_append.mp hmem with h1 | h1
    · have := syncEvents_mem dirs _ h1
      exact absurd this (by decide)
    · exact (allowedEvent_facts (hsafe _ h1)).2.2 rfl

/-- C3 witness: one malformed plugin next to one healthy plugin whose steps
all succeed; the descriptor failure is reported once and the commit block is
never entered. -/
theorem claim_C3_witness :
    ((jobsOf [DirSpec.malformed,
        DirSpec.plugin [] ⟨"/w", ⟨some ⟨"web", "r"⟩, none, false, false⟩,
          ⟨true, true, true, true, true⟩, "u1"⟩ true "u2" []]).Perm
      (jobsOf [DirSpec.malformed,
        DirSpec.plugin [] ⟨"/w", ⟨some ⟨"web", "r"⟩, none, false, false⟩,
          ⟨true, true, true, true, true⟩, "u1"⟩ true "u2" []])) ∧
      (1 ≤ [DirSpec.malformed,
        DirSpec.plugin [] ⟨"/w", ⟨some ⟨"web", "r"⟩, none, false, false⟩,
          ⟨true, true, true, true, true⟩, "u1"⟩ true "u2" []].countP isMalformedDir) ∧
      ((runOrchestrator true [DirSpec.malformed,
          DirSpec.plugin [] ⟨"/w", ⟨some ⟨"web", "r"⟩, none, false, false⟩,
            ⟨true, true, true, true, true⟩, "u1"⟩ true "u2" []]
          ⟨true, true, true, true, true, true, true, []⟩
          (jobsOf [DirSpec.malformed,
            DirSpec.plugin [] ⟨"/w", ⟨some ⟨"web", "r"⟩, none, false, false⟩,
              ⟨true, true, true, true, true⟩, "u1"⟩ true "u2" []])).countP
          (fun e => e = RunEvent.cbError FailReason.descriptorLoad)
        = [DirSpec.malformed,
            DirSpec.plugin [] ⟨"/w", ⟨some ⟨"web", "r"⟩, none, false, false⟩,
              ⟨true, true, true, true, true⟩, "u1"⟩ true "u2" []].countP isMalformedDir ∧
        RunEvent.linkStarted ∉ runOrchestrator true [DirSpec.malformed,
          DirSpec.plugin [] ⟨"/w", ⟨some ⟨"web", "r"⟩, none, false, false⟩,
            ⟨true, true, true, true, true⟩, "u1"⟩ true "u2" []]
          ⟨true, true, true, true, true, true, true, []⟩
          (jobsOf [DirSpec.malformed,
            DirSpec.plugin [] ⟨"/w", ⟨some ⟨"web", "r"⟩, none, false, false⟩,
              ⟨true, true, true, true, true⟩, "u1"⟩ true "u2" []]) ∧
        RunEvent.cbSuccess ∉ runOrchestrator true [DirSpec.malformed,
          DirSpec.plugin [] ⟨"/w", ⟨some ⟨"web", "r"⟩, none, false, false⟩,
            ⟨true, true, true, true, true⟩, "u1"⟩ true "u2" []]
          ⟨true, true, true, true, true, true, true, []⟩
          (jobsOf [DirSpec.malformed,
            DirSpec.plugin [] ⟨"/w", ⟨some ⟨"web", "r"⟩, none, false, false⟩,
              ⟨true, true, true, true, true⟩, "u1"⟩ true "u2" []])) :=
  ⟨List.Perm.refl _, by decide,
    claim_C3_theorem _ _ _ (List.Perm.refl _) (by decide)⟩

/-- C4, counterexample to the claim as stated: with zero controller specs
`prepApi` produces no callback invocation at all (the claim says it invokes
its callback with an empty entry list), and on a plugins root with zero plugin
directories the whole run produces no events (the claim says the top-level
completion fires): the `tasks`-array barrier only fires inside `finishTask`,
which only completions call, and with expected count 0 there are none. -/
theorem claim_C4_counterexample :
    prepApiRun [] [] = [] ∧
      runOrchestrator true [] ⟨true, true, true, true, true, true, true, []⟩ [] = [] := by
  decide

/-- C4 (amended): a tasks-array barrier with expected count 0 never fires:
`prepApi` on an empty controller list never invokes its callback, and the
orchestrator on a plugins root without plugin directories never invokes the
top-level callback (the run produces no events at all), for every completion
order. -/
theorem claim_C4_theorem (co : CommitOracle) (apiOrder : List (String × PackEvent))
    (order : List Job) (h1 : apiOrder.Perm (apiJobsOf []))
    (h2 : order.Perm (jobsOf [])) :
    prepApiRun [] apiOrder = [] ∧ runOrchestrator true [] co order = [] := by
  have ha : apiOrder = [] := List.Perm.eq_nil (by simpa [apiJobsOf] using h1)
  have hb : order = [] := List.Perm.eq_nil (by simpa [jobsOf, pluginsOf] using h2)
  subst ha
  subst hb
  exact ⟨rfl, by simp [runOrchestrator, runJobs, syncEvents]⟩

/-- C4 witness: the empty configurations with the empty completion order. -/
theorem claim_C4_witness :
    (([] : List (String × PackEvent)).Perm (apiJobsOf []) ∧
        ([] : List Job).Perm (jobsOf [])) ∧
      (prepApiRun [] [] = [] ∧
        runOrchestrator true [] ⟨true, true, true, true, true, true, true, []⟩ [] = []) :=
  ⟨⟨by decide, by decide⟩,
    claim_C4_theorem ⟨true, true, true, true, true, true, true, []⟩ [] []
      (by decide) (by decide)⟩

/-- C5 (code bug): `packAndInstall` can never invoke its callback with the
generated unique name: the continuation passed to `execSync('npm pack', ...)`
at line 35 is discarded (`execSync` takes no callback), so the
move-to-staging, manifest-restore and success-callback steps are dead code.
On the all-success path the function ends with no callback invocation, the
tarball still in the source directory, and `package.json` left rewritten with
the unique name — not byte-identical to its pre-call contents. -/
theorem claim_C5_theorem :
    (∀ (st : PackDirState) (o : PackOracle) (u m : String),
        PackEvent.cbSuccess m ∉ (packAndInstall st o u).2) ∧
      packAndInstall ⟨some ⟨"origName", "restOfManifest"⟩, none, false, false⟩
          ⟨true, true, true, true, true⟩ "11111111-2222-3333-4444-555555555555"
        = (⟨some ⟨packAndInstallUniqueName "11111111-2222-3333-4444-555555555555",
              "restOfManifest"⟩,
            some ⟨"origName", "restOfManifest"⟩, true, false⟩, []) ∧
      packAndInstallUniqueName "11111111-2222-3333-4444-555555555555" ≠ "origName" :=
  ⟨packAndInstall_no_cbSuccess, by decide, by decide⟩

/-- C5 witness: no success callback at a concrete input. -/
theorem claim_C5_witness :
    PackEvent.cbSuccess "m" ∉
      (packAndInstall ⟨none, none, false, false⟩ ⟨true, true, true, true, true⟩ "u").2 :=
  claim_C5_theorem.1 ⟨none, none, false, false⟩ ⟨true, true, true, true, true⟩ "u" "m"

/-- C6: `cleanUpSync` is idempotent on a core directory whose compose-file
service keys are distinct (a JS object cannot hold duplicate keys) and whose
two staging directories are readable: a successful run leaves the
empty-registry baseline — empty controller manifest, the reset frontend module
list, no regular files in either staging directory, no managed entries in the
service registry — and running `cleanUpSync` again on that result succeeds
without error and changes nothing. -/
theorem claim_C6_theorem (s s' : CoreState)
    (hn : ((s.compose.getD []).map Prod.fst).Nodup)
    (hA : s.tempApi ≠ none) (hF : s.tempFe ≠ none)
    (h : cleanUpSync s = (s', true)) :
    s'.controllersJson = some [] ∧
      s'.experimentsJs = some resetExperimentsJs ∧
      (∀ e ∈ s'.tempApi.getD [], e.2 = false) ∧
      (∀ e ∈ s'.tempFe.getD [], e.2 = false) ∧
      (∀ p ∈ s'.compose.getD [], isManaged p.2 = false) ∧
      cleanUpSync s' = (s', true) := by
  obtain ⟨cj, ej, ta, tf, cp⟩ := s
  cases cj with
  | none => simp [cleanUpSync] at h
  | some cjv =>
  cases ej with
  | none => simp [cleanUpSync] at h
  | some ejv =>
  cases ta with
  | none => exact absurd rfl hA
  | some tav =>
  cases tf with
  | none => exact absurd rfl hF
  | some tfv =>
  cases cp with
  | none => simp [cleanUpSync] at h
  | some cpv =>
  have hncp : (cpv.map Prod.fst).Nodup := by simpa using hn
  simp only [cleanUpSync] at h
  have hs' : s' = ⟨some [], some resetExperimentsJs,
      some (tav.filter (fun e => !e.2)), some (tfv.filter (fun e => !e.2)),
      some (removeManagedServices cpv)⟩ := by
    have := congrArg Prod.fst h
    simpa using this.symm
  subst hs'
  refine ⟨rfl, rfl, ?_, ?_, ?_, ?_⟩
  · intro e he
    have := List.of_mem_filter (show e ∈ tav.filter (fun e => !e.2) from he)
    simpa using this
  · intro e he
    have := List.of_mem_filter (show e ∈ tfv.filter (fun e => !e.2) from he)
    simpa using this
  · intro p hp
    exact removeManagedServices_unmanaged cpv hncp p hp
  · simp only [cleanUpSync]
    rw [filter_idem, filter_idem, removeManagedServices_idem cpv hncp]

/-- C6 witness: a concrete populated core directory; the first run reaches the
baseline and the second run reproduces it without error. -/
theorem claim_C6_witness :
    (((⟨some [⟨"mod", "/p"⟩],
          some "import x from 'x';\nexport default [\nx,\n];",
          some [("a.tgz", true), ("sub", false)], some [],
          some [("w1", [("labels", SVal.labels [("isPushkinWorker", true)])]),
            ("db", [("image", SVal.str "postgres")])]⟩ : CoreState).compose.getD
          []).map Prod.fst).Nodup ∧
      (⟨some [⟨"mod", "/p"⟩],
          some "import x from 'x';\nexport default [\nx,\n];",
          some [("a.tgz", true), ("sub", false)], some [],
          some [("w1", [("labels", SVal.labels [("isPushkinWorker", true)])]),
            ("db", [("image", SVal.str "postgres")])]⟩ : CoreState).tempApi ≠ none ∧
      (⟨some [⟨"mod", "/p"⟩],
          some "import x from 'x';\nexport default [\nx,\n];",
          some [("a.tgz", true), ("sub", false)], some [],
          some [("w1", [("labels", SVal.labels [("isPushkinWorker", true)])]),
            ("db", [("image", SVal.str "postgres")])]⟩ : CoreState).tempFe ≠ none ∧
      cleanUpSync ⟨some [⟨"mod", "/p"⟩],
          some "import x from 'x';\nexport default [\nx,\n];",
          some [("a.tgz", true), ("sub", false)], some [],
          some [("w1", [("labels", SVal.labels [("isPushkinWorker", true)])]),
            ("db", [("image", SVal.str "postgres")])]⟩
        = (⟨some [], some resetExperimentsJs, some [("sub", false)], some [],
            some [("db", [("image", SVal.str "postgres")])]⟩, true) ∧
      cleanUpSync ⟨some [], some resetExperimentsJs, some [("sub", false)], some [],
          some [("db", [("image", SVal.str "postgres")])]⟩
        = (⟨some [], some resetExperimentsJs, some [("sub", false)], some [],
            some [("db", [("image", SVal.str "postgres")])]⟩, true) :=
  ⟨by decide, by decide, by decide, by decide,
    (claim_C6_theorem
      ⟨some [⟨"mod", "/p"⟩], some "import x from 'x';\nexport default [\nx,\n];",
        some [("a.tgz", true), ("sub", false)], some [],
        some [("w1", [("labels", SVal.labels [("isPushkinWorker", true)])]),
          ("db", [("image", SVal.str "postgres")])]⟩
      ⟨some [], some resetExperimentsJs, some [("sub", false)], some [],
        some [("db", [("image", SVal.str "postgres")])]⟩
      (by decide) (by decide) (by decide) (by decide)).2.2.2.2.2⟩

/-- C7: the worker-removal pass of `cleanUpSync` removes exactly the service
entries whose labels carry `isPushkinWorker` and rewrites the registry
preserving every unmarked entry unchanged, in order: on any registry with
distinct service names the result is precisely the original list filtered to
its unmanaged entries. -/
theorem claim_C7_theorem (services : List (String × Service))
    (hn : (services.map Prod.fst).Nodup) :
    removeManagedServices services = services.filter (fun p => !isManaged p.2) ∧
      (∀ p ∈ services, isManaged p.2 = false → p ∈ removeManagedServices services) ∧
      (∀ p ∈ removeManagedServices services, isManaged p.2 = false ∧ p ∈ services) := by
  have he := removeManagedServices_eq_filter services hn
  refine ⟨he, ?_, ?_⟩
  · intro p hp hm
    rw [he]
    exact List.mem_filter.mpr ⟨hp, by simp [hm]⟩
  · intro p hp
    rw [he] at hp
    obtain ⟨hmem, hflt⟩ := List.mem_filter.mp hp
    exact ⟨by simpa using hflt, hmem⟩

/-- C7 witness: a registry with three managed entries and one unmanaged entry
keeps exactly the unmanaged one. -/
theorem claim_C7_witness :
    ([("w1", [("labels", SVal.labels [("isPushkinWorker", true)])]),
        ("w2", [("labels", SVal.labels [("isPushkinWorker", true)])]),
        ("w3", [("labels", SVal.labels [("isPushkinWorker", true)])]),
        ("db", [("image", SVal.str "postgres")])].map
          (Prod.fst : String × Service → String)).Nodup ∧
      removeManagedServices
          [("w1", [("labels", SVal.labels [("isPushkinWorker", true)])]),
            ("w2", [("labels", SVal.labels [("isPushkinWorker", true)])]),
            ("w3", [("labels", SVal.labels [("isPushkinWorker", true)])]),
            ("db", [("image", SVal.str "postgres")])]
        = [("db", [("image", SVal.str "postgres")])] := by
  refine ⟨by decide, ?_⟩
  rw [(claim_C7_theorem _ (by decide)).1]
  decide

/-- C8, counterexample to the claim as stated: a controller and a web page are
named by the very same generator (`packAndInstall`, line 25), so for one and
the same uuid the controller name and the web-page name coincide — the three
roles do not carry pairwise distinguishable name parts; only workers
(`pushkinworker`, line 193) differ from the shared `pushkinComponent` part. -/
theorem claim_C8_counterexample :
    roleName Role.controller "123e4567-e89b-12d3-a456-426614174000"
      = roleName Role.webPage "123e4567-e89b-12d3-a456-426614174000" := rfl

/-- C8 (amended): generating names for any list of calls whose uuids are
canonically formatted and pairwise distinct yields pairwise-distinct names;
the worker names are always distinguishable from controller and web-page
names (distinct fixed name parts), but controllers and web pages share one
name generator, so those two roles are not distinguishable by name shape. -/
theorem claim_C8_theorem (calls : List (Role × String))
    (hfmt : ∀ c ∈ calls, IsUuidString c.2)
    (hdist : (calls.map Prod.snd).Pairwise (· ≠ ·)) :
    ((calls.map (fun c => roleName c.1 c.2)).Pairwise (· ≠ ·)) ∧
      (∀ u, roleName Role.controller u = roleName Role.webPage u) ∧
      (∀ u v, roleName Role.worker u ≠ roleName Role.controller v) := by
  refine ⟨?_, fun u => rfl, fun u v h => componentName_ne_workerName v u h.symm⟩
  rw [List.pairwise_map]
  rw [List.pairwise_map] at hdist
  refine hdist.imp_of_mem ?_
  intro a b ha hb hne
  exact roleName_ne (hfmt a ha) (hfmt b hb) hne

/-- C8 witness: two calls, a controller and a worker, with distinct canonical
uuids. -/
theorem claim_C8_witness :
    (∀ c ∈ ([(Role.controller, "123e4567-e89b-12d3-a456-426614174000"),
        (Role.worker, "00000000-1111-4222-8333-444444444444")] : List (Role × String)),
      IsUuidString c.2) ∧
      (([(Role.controller, "123e4567-e89b-12d3-a456-426614174000"),
          (Role.worker, "00000000-1111-4222-8333-444444444444")].map
            (Prod.snd : Role × String → String)).Pairwise (· ≠ ·)) ∧
      ((([(Role.controller, "123e4567-e89b-12d3-a456-426614174000"),
          (Role.worker, "00000000-1111-4222-8333-444444444444")].map
            (fun c => roleName c.1 c.2)).Pairwise (· ≠ ·)) ∧
        (∀ u, roleName Role.controller u = roleName Role.webPage u) ∧
        (∀ u v, roleName Role.worker u ≠ roleName Role.controller v)) := by
  have hA : IsUuidString "123e4567-e89b-12d3-a456-426614174000" :=
    ⟨"123e4567e89b12d3a456426614174000".data, by decide, by decide, by decide⟩
  have hB : IsUuidString "00000000-1111-4222-8333-444444444444" :=
    ⟨"00000000111142228333444444444444".data, by decide, by decide, by decide⟩
  have hfmt : ∀ c ∈ ([(Role.controller, "123e4567-e89b-12d3-a456-426614174000"),
      (Role.worker, "00000000-1111-4222-8333-444444444444")] : List (Role × String)),
      IsUuidString c.2 := by
    intro c hc
    rcases List.mem_cons.mp hc with rfl | hc
    · exact hA
    rcases List.mem_cons.mp hc with rfl | hc
    · exact hB
    · cases hc
  have hdist : (([(Role.controller, "123e4567-e89b-12d3-a456-426614174000"),
      (Role.worker, "00000000-1111-4222-8333-444444444444")].map
        (Prod.snd : Role × String → String)).Pairwise (· ≠ ·)) := by
    simp
  exact ⟨hfmt, hdist, claim_C8_theorem _ hfmt hdist⟩

/-- C9: when the backup copy of `package.json` cannot be created (line 17
throws), `packAndInstall` invokes its callback once with the backup-failure
error and returns with the source directory completely untouched: no read,
rewrite, build, pack or relocation step has run. -/
theorem claim_C9_theorem (st : PackDirState) (o : PackOracle) (u : String)
    (h : o.copyOk = false) :
    packAndInstall st o u = (st, [PackEvent.cbError "Failed to backup package.json"]) := by
  simp [packAndInstall, h]

/-- C9 witness: a concrete failing backup. -/
theorem claim_C9_witness :
    (⟨false, true, true, true, true⟩ : PackOracle).copyOk = false ∧
      packAndInstall ⟨some ⟨"n", "r"⟩, none, false, false⟩
          ⟨false, true, true, true, true⟩ "u"
        = (⟨some ⟨"n", "r"⟩, none, false, false⟩,
            [PackEvent.cbError "Failed to backup package.json"]) :=
  ⟨rfl, claim_C9_theorem _ _ _ rfl⟩

/-- C10: the service entry `prepWorker` produces equals the descriptor's base
service definition with exactly two changes — `image` is set to the generated
worker name and the labels object gains `isPushkinWorker: true` — while every
other field and every other pre-existing label is preserved unchanged. -/
theorem claim_C10_theorem (base : Service) (nm : String) :
    assocGet (prepWorkerService base nm) "image" = some (SVal.str nm) ∧
      (∀ k, k ≠ "image" → k ≠ "labels" →
        assocGet (prepWorkerService base nm) k = assocGet base k) ∧
      assocGet (serviceLabels (prepWorkerService base nm)) "isPushkinWorker" = some true ∧
      (∀ k, k ≠ "isPushkinWorker" →
        assocGet (serviceLabels (prepWorkerService base nm)) k
          = assocGet (serviceLabels base) k) := by
  have hlbls :
      (match assocGet (assocSet base "image" (SVal.str nm)) "labels" with
        | some (SVal.labels l) => l
        | _ => []) = serviceLabels base := by
    rw [assocGet_set_ne base "image" "labels" (SVal.str nm) (by decide)]
    rfl
  have hres : prepWorkerService base nm
      = assocSet (assocSet base "image" (SVal.str nm)) "labels"
          (SVal.labels (assocSet (serviceLabels base) "isPushkinWorker" true)) := by
    simp only [prepWorkerService]
    rw [hlbls]
  rw [hres]
  have hsl : serviceLabels (assocSet (assocSet base "image" (SVal.str nm)) "labels"
      (SVal.labels (assocSet (serviceLabels base) "isPushkinWorker" true)))
      = assocSet (serviceLabels base) "isPushkinWorker" true := by
    rw [serviceLabels, assocGet_set_self]
  refine ⟨?_, ?_, ?_, ?_⟩
  · rw [assocGet_set_ne _ "labels" "image" _ (by decide), assocGet_set_self]
  · intro k h1 h2
    rw [assocGet_set_ne _ "labels" k _ h2, assocGet_set_ne _ "image" k _ h1]
  · rw [hsl, assocGet_set_self]
  · intro k hk
    rw [hsl, assocGet_set_ne _ "isPushkinWorker" k _ hk]

/-- C10 witness: a concrete base service with an image, a pre-existing label
and an unrelated field. -/
theorem claim_C10_witness :
    assocGet (prepWorkerService
        [("image", SVal.str "old"), ("ports", SVal.str "80"),
          ("labels", SVal.labels [("team", true)])] "pushkinworkerz") "image"
      = some (SVal.str "pushkinworkerz") ∧
      assocGet (prepWorkerService
          [("image", SVal.str "old"), ("ports", SVal.str "80"),
            ("labels", SVal.labels [("team", true)])] "pushkinworkerz") "ports"
        = assocGet [("image", SVal.str "old"), ("ports", SVal.str "80"),
            ("labels", SVal.labels [("team", true)])] "ports" ∧
      assocGet (serviceLabels (prepWorkerService
          [("image", SVal.str "old"), ("ports", SVal.str "80"),
            ("labels", SVal.labels [("team", true)])] "pushkinworkerz"))
          "isPushkinWorker" = some true ∧
      assocGet (serviceLabels (prepWorkerService
          [("image", SVal.str "old"), ("ports", SVal.str "80"),
            ("labels", SVal.labels [("team", true)])] "pushkinworkerz")) "team"
        = assocGet (serviceLabels [("image", SVal.str "old"), ("ports", SVal.str "80"),
            ("labels", SVal.labels [("team", true)])]) "team" :=
  ⟨(claim_C10_theorem _ "pushkinworkerz").1,
    (claim_C10_theorem _ "pushkinworkerz").2.1 "ports" (by decide) (by decide),
    (claim_C10_theorem _ "pushkinworkerz").2.2.1,
    (claim_C10_theorem _ "pushkinworkerz").2.2.2 "team" (by decide)⟩

end PushkinPrep
